import Mathlib

/-!
Verification of the spaced-repetition review engine of `src/app.py`
(vocabulary store, scheduler, due-set selector).

Modelling conventions:
* Dates are ISO-8601 strings in the source (`strftime("%Y-%m-%d")`), compared
  lexicographically by the storage layer; that order is isomorphic to the
  day-number order, so dates are embedded as integers (day numbers) and
  `today_dt + timedelta(days=d)` becomes integer addition.
* The SQLite `vocab` table is embedded as a list of rows; the `(word, language)`
  primary key makes `INSERT OR IGNORE` a conditional append.
* `ORDER BY random()` is embedded by passing the per-call ordering as an
  explicit reordering function, hypothesised to permute its input.
* Python integers are `Int`.
-/

/-- A row of the `vocab` table (src/app.py lines 29-31):
`(word TEXT, language TEXT, translation TEXT, proficiency INTEGER DEFAULT 0,
last_reviewed DATE, next_review_date DATE, PRIMARY KEY (word, language))`.
`DATE` columns are nullable. -/
structure VocabRow where
  word : String
  language : String
  translation : String
  proficiency : Int
  last_reviewed : Option Int
  next_review_date : Option Int
deriving Repr, DecidableEq

/-- A row of the `user_levels` table (src/app.py lines 27-28). -/
structure LevelRow where
  language : String
  level : String
  last_assessed : Option Int
deriving Repr, DecidableEq

/-- The whole persistent store (`web_language_brain_v6.db`). -/
structure DB where
  user_levels : List LevelRow
  vocab : List VocabRow
deriving Repr, DecidableEq

/-- The scheduling computation of `update_word` (src/app.py lines 384-386):
```
if quality == 0: new_prof, days = max(0, prof - 1), 0
elif quality == 1: new_prof, days = prof, 2
else: new_prof, days = min(5, prof + 1), 3 + prof * 2
```
Python evaluates the right-hand tuple before assigning, so in the `else`
branch `days` uses the pre-update `prof`. Returns `(new_prof, days)`. -/
def update_word_sched (quality prof : Int) : Int × Int :=
  if quality = 0 then (max 0 (prof - 1), 0)
  else if quality = 1 then (prof, 2)
  else (min 5 (prof + 1), 3 + prof * 2)

/-- The row rewrite performed by the UPDATE of `update_word`
(src/app.py lines 389-392): rows matching `word=? AND language=?` get
`proficiency`, `last_reviewed` and `next_review_date` overwritten
(`next_date = today_dt + timedelta(days=days)`); other rows are untouched. -/
def judgeRow (w lang : String) (quality prof today : Int) (r : VocabRow) : VocabRow :=
  if r.word == w && r.language == lang then
    { r with proficiency := (update_word_sched quality prof).1,
             last_reviewed := some today,
             next_review_date := some (today + (update_word_sched quality prof).2) }
  else r

/-- `update_word` on the vocab table (src/app.py lines 381-394): compute the
new proficiency and day offset from `quality` and the queue row's `prof`,
then UPDATE the row keyed by `(word, language)`. -/
def update_word (s : List VocabRow) (w lang : String) (quality prof today : Int) :
    List VocabRow :=
  s.map (judgeRow w lang quality prof today)

/-- `update_word` at the level of the whole database: only the `vocab` table
is touched (the UPDATE statement of src/app.py line 390 names only `vocab`). -/
def update_word_db (db : DB) (w lang : String) (quality prof today : Int) : DB :=
  { db with vocab := update_word db.vocab w lang quality prof today }

/-- Does a row with primary key `(w, lang)` exist? (`INSERT OR IGNORE`
ignores the insert exactly when the primary key is already present.) -/
def keyExists (s : List VocabRow) (w lang : String) : Bool :=
  s.any (fun r => r.word == w && r.language == lang)

/-- The `INSERT OR IGNORE INTO vocab` of `extract_and_save_vocab`
(src/app.py lines 121-125): inserts
`(word, language, translation, last_reviewed, next_review_date, proficiency)
= (w, lang, trans, today, today, 0)` unless a row with key `(w, lang)`
already exists, in which case it is a no-op (`next_review = today`,
src/app.py line 117). -/
def insertOrIgnore (s : List VocabRow) (w lang trans : String) (today : Int) :
    List VocabRow :=
  if keyExists s w lang then s
  else s ++ [⟨w, lang, trans, 0, some today, some today⟩]

/-- Number of rows with primary key `(w, lang)`. -/
def keyCount (s : List VocabRow) (w lang : String) : Nat :=
  (s.filter (fun r => r.word == w && r.language == lang)).length

/-- The WHERE clause shared by the sidebar count (src/app.py lines 163-165)
and the tab3 queue load (src/app.py lines 348-350):
`language=? AND (next_review_date <= ? OR next_review_date IS NULL)`. -/
def isDue (lang : String) (asOf : Int) (r : VocabRow) : Bool :=
  r.language == lang && (match r.next_review_date with
    | none => true
    | some d => decide (d ≤ asOf))

/-- The tab3 queue load (src/app.py lines 348-350):
`SELECT ... FROM vocab WHERE language=? AND (next_review_date <= ? OR
next_review_date IS NULL) ORDER BY random() LIMIT 10`, with the limit and the
per-call random ordering made explicit parameters. -/
def queryDue (s : List VocabRow) (lang : String) (asOf : Int) (lim : Nat)
    (order : List VocabRow → List VocabRow) : List VocabRow :=
  (order (s.filter (isDue lang asOf))).take lim

/-- The sidebar due count (src/app.py lines 163-165):
`SELECT count(*) FROM vocab WHERE language=? AND (next_review_date <= ? OR
next_review_date IS NULL)`. -/
def countDue (s : List VocabRow) (lang : String) (asOf : Int) : Nat :=
  (s.filter (isDue lang asOf)).length

/-- The only query the review tab ever issues to fill an empty queue
(src/app.py lines 344-353): `queryDue` with `LIMIT 10`. When it returns
nothing the tab shows the caught-up message (src/app.py line 403); no other
query is issued. -/
def tab3_load_queue (s : List VocabRow) (lang : String) (today : Int)
    (order : List VocabRow → List VocabRow) : List VocabRow :=
  queryDue s lang today 10 order

/-- Modelled from the spec: `sampleAny(language, limit)` — the fallback
query the spec postulates for an empty session, "a random sample of items
regardless of due date", filtering only by language. No such query exists in
src/app.py; the review tab (lines 344-403) issues only the due-filtered
query. This definition follows the spec's words for comparison. -/
def sampleAny_specmodel (s : List VocabRow) (lang : String) (lim : Nat)
    (order : List VocabRow → List VocabRow) : List VocabRow :=
  (order (s.filter (fun r => r.language == lang))).take lim

/-- A candidate pair from the extraction collaborator, as a JSON object that
may be missing the `word` or `trans` key (src/app.py line 99 gives the
expected shape `{"word": ..., "trans": ...}`). -/
structure Candidate where
  word : Option String
  trans : Option String
deriving Repr, DecidableEq

/-- The insertion loop of `extract_and_save_vocab` (src/app.py lines
120-126): for each item, `item['word']` and `item['trans']` are read (a
missing key raises `KeyError`, modelled as `none`), the row is inserted with
`INSERT OR IGNORE`, and the word is appended to `saved_words`. Returns
`none` when some item is malformed (the raised exception aborts the loop). -/
def extractLoop (lang : String) (today : Int) :
    List Candidate → List VocabRow → Option (List VocabRow × List String)
  | [], s => some (s, [])
  | c :: rest, s =>
    match c.word, c.trans with
    | some w, some t =>
      match extractLoop lang today rest (insertOrIgnore s w lang t today) with
      | some (s2, ws) => some (s2, w :: ws)
      | none => none
    | _, _ => none

/-- `extract_and_save_vocab` from the parsed candidate list on
(src/app.py lines 112-131): run the insertion loop, then `conn.commit()` and
return `saved_words`; any exception is caught by the bare `except:` which
returns `[]` — `commit` is then never executed, so the store is observably
unchanged. Returns `(vocab table after the call, returned word list)`. -/
def extract_and_save_vocab (s : List VocabRow) (cands : List Candidate)
    (lang : String) (today : Int) : List VocabRow × List String :=
  match extractLoop lang today cands s with
  | some (s2, ws) => (s2, ws)
  | none => (s, [])

/-- The [0,5] proficiency invariant over a vocab table. -/
def profInv (s : List VocabRow) : Prop :=
  ∀ r ∈ s, 0 ≤ r.proficiency ∧ r.proficiency ≤ 5

instance : DecidablePred profInv := fun s =>
  inferInstanceAs (Decidable (∀ r ∈ s, 0 ≤ r.proficiency ∧ r.proficiency ≤ 5))

/-! ## Helper lemmas -/

theorem keyExists_iff (s : List VocabRow) (w lang : String) :
    keyExists s w lang = true ↔ ∃ r ∈ s, r.word = w ∧ r.language = lang := by
  simp [keyExists, List.any_eq_true]

theorem keyExists_insertOrIgnore_self (s : List VocabRow) (w lang t : String)
    (d : Int) : keyExists (insertOrIgnore s w lang t d) w lang = true := by
  by_cases h : keyExists s w lang
  · rw [insertOrIgnore, if_pos h]; exact h
  · rw [insertOrIgnore, if_neg h, keyExists_iff]
    exact ⟨⟨w, lang, t, 0, some d, some d⟩, by simp, rfl, rfl⟩

theorem keyCount_pos_of_keyExists (s : List VocabRow) (w lang : String)
    (h : keyExists s w lang = true) : 0 < keyCount s w lang := by
  rcases (keyExists_iff s w lang).1 h with ⟨r, hr, hw, hl⟩
  have : r ∈ s.filter (fun r => r.word == w && r.language == lang) := by
    simp [List.mem_filter, hr, hw, hl]
  calc 0 < 1 := Nat.one_pos
    _ ≤ keyCount s w lang := by
      unfold keyCount
      exact List.length_pos.2 (fun hnil => by simp [hnil] at this)

theorem keyCount_zero_of_not_keyExists (s : List VocabRow) (w lang : String)
    (h : ¬ keyExists s w lang = true) : keyCount s w lang = 0 := by
  unfold keyCount
  rw [List.length_eq_zero, List.filter_eq_nil_iff]
  intro r hr hpred
  exact h ((keyExists_iff s w lang).2 ⟨r, hr, by simpa using hpred⟩)

/-! ## C1 — Easy scheduling -/

/-- C1 (counterexample): at proficiency 0 the Easy branch yields
`(newProficiency, dayOffset) = (1, 3)`: the day offset is `3 + 0*2 = 3`,
computed from the pre-update proficiency, not `3 + newProficiency*2 = 5`
as the claim states. -/
theorem C1_easy_offset_counterexample :
    update_word_sched 2 0 = (1, 3) ∧
    (3 : Int) + (min 5 (0 + 1)) * 2 = 5 ∧
    (update_word_sched 2 0).2 ≠ 3 + (min 5 (0 + 1)) * 2 := by decide

/-- C1 (amended): for every proficiency `p` in [0,5], judging Easy yields
`newProficiency = min(5, p+1)` and `dayOffset = 3 + p*2`, the multiplier
being the pre-update proficiency; the updated row's `next_review_date`
becomes `today + dayOffset` and `last_reviewed` becomes `today`. -/
theorem C1_easy_schedule (p today : Int) (h0 : 0 ≤ p) (h5 : p ≤ 5)
    (w lang tr : String) (lr nr : Option Int) :
    update_word_sched 2 p = (min 5 (p + 1), 3 + p * 2) ∧
    update_word [⟨w, lang, tr, p, lr, nr⟩] w lang 2 p today =
      [⟨w, lang, tr, min 5 (p + 1), some today, some (today + (3 + p * 2))⟩] := by
  refine ⟨by simp [update_word_sched], ?_⟩
  simp [update_word, judgeRow, update_word_sched]

/-- C1 witness: the amended Easy schedule at proficiency 2
(the spec's "Brot" scenario: 3 + 2*2 = 7 days with the pre-update value). -/
theorem C1_easy_schedule_witness :
    update_word_sched 2 2 = (min 5 (2 + 1), 3 + 2 * 2) ∧
    update_word [⟨"Brot", "German", "bread", 2, some 90, some 100⟩]
        "Brot" "German" 2 2 100 =
      [⟨"Brot", "German", "bread", min 5 (2 + 1), some 100,
        some (100 + (3 + 2 * 2))⟩] :=
  C1_easy_schedule 2 100 (by decide) (by decide) "Brot" "German" "bread"
    (some 90) (some 100)

/-! ## C7 — Forgot scheduling -/

/-- C7: for every proficiency `p` in [0,5], judging Forgot yields
`newProficiency = max(0, p-1)` and `dayOffset = 0`, so the updated row's
`next_review_date` becomes `today` (due again immediately); at `p = 0` the
proficiency stays 0. -/
theorem C7_forgot_schedule (p today : Int) (h0 : 0 ≤ p) (h5 : p ≤ 5)
    (w lang tr : String) (lr nr : Option Int) :
    update_word_sched 0 p = (max 0 (p - 1), 0) ∧
    update_word [⟨w, lang, tr, p, lr, nr⟩] w lang 0 p today =
      [⟨w, lang, tr, max 0 (p - 1), some today, some today⟩] ∧
    (p = 0 → max 0 (p - 1) = 0) := by
  refine ⟨by simp [update_word_sched], ?_, ?_⟩
  · simp [update_word, judgeRow, update_word_sched]
  · rintro rfl; decide

/-- C7 witness: the spec's "Wasser" scenario — proficiency 0, Forgot:
proficiency stays 0 and the item is due again today. -/
theorem C7_forgot_schedule_witness :
    update_word_sched 0 0 = (max 0 (0 - 1), 0) ∧
    update_word [⟨"Wasser", "German", "water", 0, some 100, some 100⟩]
        "Wasser" "German" 0 0 100 =
      [⟨"Wasser", "German", "water", max 0 (0 - 1), some 100, some 100⟩] ∧
    ((0 : Int) = 0 → max 0 ((0 : Int) - 1) = 0) :=
  C7_forgot_schedule 0 100 (by decide) (by decide) "Wasser" "German" "water"
    (some 100) (some 100)

/-! ## C4 — unknown outcome values -/

/-- C4 (counterexample): quality 7 — outside the button set {0,1,2} — is not
rejected: it takes the `else` branch, behaves exactly like Easy, and the
store row is updated (proficiency 0 → 1, next due 100 → 103), contradicting
"fails fast rather than performing any update". -/
theorem C4_unknown_outcome_counterexample :
    update_word_sched 7 0 = update_word_sched 2 0 ∧
    update_word [⟨"Wasser", "German", "water", 0, some 100, some 100⟩]
        "Wasser" "German" 7 0 100 =
      [⟨"Wasser", "German", "water", 1, some 100, some 103⟩] ∧
    update_word [⟨"Wasser", "German", "water", 0, some 100, some 100⟩]
        "Wasser" "German" 7 0 100 ≠
      [⟨"Wasser", "German", "water", 0, some 100, some 100⟩] := by decide

/-- C4 (amended): the scheduler performs no validation of the outcome value:
every quality other than 0 (Forgot) and 1 (Hard) falls into the final `else`
branch and is treated exactly as Easy; no error is signalled and the
proficiency/due-date update is performed. -/
theorem C4_unknown_outcome_is_easy (q p : Int) (hq0 : q ≠ 0) (hq1 : q ≠ 1) :
    update_word_sched q p = update_word_sched 2 p := by
  simp [update_word_sched, hq0, hq1]

/-- C4 witness: quality 7 at proficiency 3 schedules exactly as Easy. -/
theorem C4_unknown_outcome_is_easy_witness :
    update_word_sched 7 3 = update_word_sched 2 3 :=
  C4_unknown_outcome_is_easy 7 3 (by decide) (by decide)

/-! ## C9 — proficiency invariant -/

/-- C9: the proficiency invariant [0,5]. Newly inserted rows have
proficiency 0 (so a store satisfying the invariant still does after
`insertOrIgnore`), and every scheduler outcome applied to a proficiency in
[0,5] produces a new proficiency in [0,5] (so `update_word` with an
in-range `prof` preserves the store invariant). -/
theorem C9_proficiency_invariant (s : List VocabRow) (hs : profInv s)
    (q p today : Int) (hp0 : 0 ≤ p) (hp5 : p ≤ 5) (w lang tr : String) :
    (0 ≤ (update_word_sched q p).1 ∧ (update_word_sched q p).1 ≤ 5) ∧
    profInv (insertOrIgnore s w lang tr today) ∧
    profInv (update_word s w lang q p today) := by
  have hsched : 0 ≤ (update_word_sched q p).1 ∧ (update_word_sched q p).1 ≤ 5 := by
    unfold update_word_sched
    split
    · constructor <;> simp <;> omega
    · split
      · exact ⟨hp0, hp5⟩
      · constructor <;> simp <;> omega
  refine ⟨hsched, ?_, ?_⟩
  · unfold insertOrIgnore
    split
    · exact hs
    · intro r hr
      rcases List.mem_append.1 hr with h | h
      · exact hs r h
      · simp only [List.mem_singleton] at h
        subst h
        exact ⟨le_refl 0, by norm_num⟩
  · intro r hr
    rcases List.mem_map.1 hr with ⟨r0, hr0, rfl⟩
    unfold judgeRow
    split
    · exact hsched
    · exact hs r0 hr0

/-! ## C2 — idempotent insertion -/

/-- C2: `INSERT OR IGNORE` is idempotent per `(word, language)` key: on a
table satisfying the primary-key constraint (at most one row per key), a
second insert for the same key — even with a different translation and a
different date — is a no-op leaving the table exactly as the first insert
left it, and after the first insert exactly one row with that key exists. -/
theorem C2_idempotent_insert (s : List VocabRow) (w lang t1 t2 : String)
    (d1 d2 : Int) (h : keyCount s w lang ≤ 1) :
    insertOrIgnore (insertOrIgnore s w lang t1 d1) w lang t2 d2 =
      insertOrIgnore s w lang t1 d1 ∧
    keyCount (insertOrIgnore s w lang t1 d1) w lang = 1 := by
  have hex : keyExists (insertOrIgnore s w lang t1 d1) w lang = true :=
    keyExists_insertOrIgnore_self s w lang t1 d1
  constructor
  · rw [insertOrIgnore, if_pos hex]
  · by_cases hk : keyExists s w lang
    · have h1 := keyCount_pos_of_keyExists s w lang hk
      rw [insertOrIgnore, if_pos hk]
      omega
    · have h0 := keyCount_zero_of_not_keyExists s w lang hk
      rw [insertOrIgnore, if_neg hk]
      unfold keyCount at h0 ⊢
      rw [List.filter_append, List.length_append, h0]
      simp

/-- C2 witness: inserting ("Hund","German","dog") into the empty table and
then ("Hund","German","perro") is a no-op on the second call, leaving one
row. -/
theorem C2_idempotent_insert_witness :
    insertOrIgnore (insertOrIgnore [] "Hund" "German" "dog" 100)
        "Hund" "German" "perro" 101 =
      insertOrIgnore [] "Hund" "German" "dog" 100 ∧
    keyCount (insertOrIgnore [] "Hund" "German" "dog" 100) "Hund" "German" = 1 :=
  C2_idempotent_insert [] "Hund" "German" "dog" "perro" 100 101 (by decide)

/-! ## C3 — due-set query membership -/

/-- A due row used in the selector counterexamples. -/
def rowA : VocabRow := ⟨"Hund", "German", "dog", 0, some 99, some 100⟩

/-- A second due row (null `next_review_date`, hence due). -/
def rowB : VocabRow := ⟨"Katze", "German", "cat", 1, some 99, none⟩

/-- C3 (counterexample): with two due rows and `LIMIT 1`, which row is in
the result depends on the per-call random ordering: with the identity
ordering the result is `[rowA]`, with the reversed ordering (a permutation
of the same filtered list) it is `[rowB]`, so membership is not independent
of the ordering. -/
theorem C3_membership_counterexample :
    (List.reverse [rowA, rowB]).Perm [rowA, rowB] ∧
    queryDue [rowA, rowB] "German" 100 1 id = [rowA] ∧
    queryDue [rowA, rowB] "German" 100 1 List.reverse = [rowB] ∧
    rowA ∈ queryDue [rowA, rowB] "German" 100 1 id ∧
    rowA ∉ queryDue [rowA, rowB] "German" 100 1 List.reverse := by
  refine ⟨List.reverse_perm _, ?_, ?_, ?_, ?_⟩ <;> decide

/-- C3 (amended): for every store, language, as-of date and limit, and every
per-call ordering that permutes the filtered rows, `queryDue` returns at
most `limit` rows, every returned row is a store row satisfying the due
filter (`language` matches and `next_review_date <= asOf` or null) — rows
due strictly later are never returned — and whenever the number of matching
rows is at most `limit`, membership is exactly the matching rows,
independent of the ordering. -/
theorem C3_queryDue_filter (s : List VocabRow) (lang : String) (asOf : Int)
    (lim : Nat) (order : List VocabRow → List VocabRow)
    (hord : (order (s.filter (isDue lang asOf))).Perm
      (s.filter (isDue lang asOf))) :
    (queryDue s lang asOf lim order).length ≤ lim ∧
    (∀ r ∈ queryDue s lang asOf lim order, r ∈ s ∧ isDue lang asOf r = true) ∧
    (countDue s lang asOf ≤ lim →
      ∀ r, r ∈ queryDue s lang asOf lim order ↔
        r ∈ s ∧ isDue lang asOf r = true) := by
  refine ⟨?_, ?_, ?_⟩
  · rw [queryDue, List.length_take]
    exact Nat.min_le_left _ _
  · intro r hr
    have h1 : r ∈ order (s.filter (isDue lang asOf)) := List.mem_of_mem_take hr
    exact List.mem_filter.1 (hord.mem_iff.1 h1)
  · intro hlim r
    have hlen : (order (s.filter (isDue lang asOf))).length ≤ lim := by
      rw [hord.length_eq]; exact hlim
    rw [queryDue, List.take_of_length_le hlen, hord.mem_iff, List.mem_filter]

/-- C3 witness: the amended query contract at a concrete two-row store with
the identity ordering. -/
theorem C3_queryDue_filter_witness :
    (queryDue [rowA, rowB] "German" 100 10 id).length ≤ 10 ∧
    (∀ r ∈ queryDue [rowA, rowB] "German" 100 10 id,
      r ∈ [rowA, rowB] ∧ isDue "German" 100 r = true) ∧
    (countDue [rowA, rowB] "German" 100 ≤ 10 →
      ∀ r, r ∈ queryDue [rowA, rowB] "German" 100 10 id ↔
        r ∈ [rowA, rowB] ∧ isDue "German" 100 r = true) :=
  C3_queryDue_filter [rowA, rowB] "German" 100 10 id (List.Perm.refl _)

/-! ## C8 — count/query agreement -/

/-- C8: the sidebar count and the queue query apply the same WHERE clause,
so for every store, language and as-of date, whenever the limit is at least
the number of matching rows, the number of rows `queryDue` returns equals
`countDue` — for every ordering that permutes the filtered rows. -/
theorem C8_countDue_queryDue_agree (s : List VocabRow) (lang : String)
    (asOf : Int) (lim : Nat) (order : List VocabRow → List VocabRow)
    (hord : (order (s.filter (isDue lang asOf))).Perm
      (s.filter (isDue lang asOf)))
    (hlim : countDue s lang asOf ≤ lim) :
    (queryDue s lang asOf lim order).length = countDue s lang asOf := by
  have hlen : (order (s.filter (isDue lang asOf))).length ≤ lim := by
    rw [hord.length_eq]; exact hlim
  rw [queryDue, List.take_of_length_le hlen, hord.length_eq]
  rfl

/-- C8 witness: at a concrete store — one due row, one not-due row, one row
of another language — the query (limit 10, identity ordering) returns as
many rows as `countDue` reports. -/
theorem C8_countDue_queryDue_agree_witness :
    (queryDue [⟨"Hund", "German", "dog", 0, some 99, some 100⟩,
               ⟨"Zug", "German", "train", 2, some 99, some 101⟩,
               ⟨"gato", "Spanish", "cat", 1, some 99, some 100⟩]
        "German" 100 10 id).length =
      countDue [⟨"Hund", "German", "dog", 0, some 99, some 100⟩,
                ⟨"Zug", "German", "train", 2, some 99, some 101⟩,
                ⟨"gato", "Spanish", "cat", 1, some 99, some 100⟩] "German" 100 :=
  C8_countDue_queryDue_agree _ "German" 100 10 id (List.Perm.refl _) (by decide)

/-! ## C5 — no fallback sample query -/

/-- C5 (counterexample): a store holding one German item due tomorrow
(today = 100, due 101). Nothing is due, the review tab's load returns the
empty queue (the caught-up state) — whereas the `sampleAny` query the claim
postulates would have returned the item. The tab issues no such query. -/
theorem C5_no_fallback_counterexample :
    countDue [⟨"Zukunft", "German", "future", 2, some 100, some 101⟩]
        "German" 100 = 0 ∧
    tab3_load_queue [⟨"Zukunft", "German", "future", 2, some 100, some 101⟩]
        "German" 100 id = [] ∧
    sampleAny_specmodel [⟨"Zukunft", "German", "future", 2, some 100, some 101⟩]
        "German" 10 id =
      [⟨"Zukunft", "German", "future", 2, some 100, some 101⟩] := by
  refine ⟨?_, ?_, ?_⟩ <;> decide

/-- C5 (amended): the review tab has no fallback query — its only load is
the due-filtered query, so every item it can ever enqueue satisfies the due
filter, and when nothing is due the queue loads empty (for every per-call
ordering) and the tab shows the caught-up message; items due in the future
are never loadable. -/
theorem C5_review_always_due_filtered (s : List VocabRow) (lang : String)
    (today : Int) (order : List VocabRow → List VocabRow)
    (hord : (order (s.filter (isDue lang today))).Perm
      (s.filter (isDue lang today))) :
    (∀ r ∈ tab3_load_queue s lang today order, isDue lang today r = true) ∧
    (countDue s lang today = 0 → tab3_load_queue s lang today order = []) := by
  constructor
  · intro r hr
    have h1 : r ∈ order (s.filter (isDue lang today)) := List.mem_of_mem_take hr
    exact (List.mem_filter.1 (hord.mem_iff.1 h1)).2
  · intro h0
    have hnil : s.filter (isDue lang today) = [] := List.length_eq_zero.1 h0
    have h2 : order (s.filter (isDue lang today)) = [] := by
      rw [hnil] at hord ⊢
      exact hord.eq_nil
    rw [tab3_load_queue, queryDue, h2, List.take_nil]

/-- C5 witness: the tab's load on the one-future-item store, identity
ordering: every loaded row is due (vacuously) and the queue is empty. -/
theorem C5_review_always_due_filtered_witness :
    (∀ r ∈ tab3_load_queue
        [⟨"Zukunft", "German", "future", 2, some 100, some 101⟩]
        "German" 100 id, isDue "German" 100 r = true) ∧
    (countDue [⟨"Zukunft", "German", "future", 2, some 100, some 101⟩]
        "German" 100 = 0 →
      tab3_load_queue [⟨"Zukunft", "German", "future", 2, some 100, some 101⟩]
        "German" 100 id = []) :=
  C5_review_always_due_filtered
    [⟨"Zukunft", "German", "future", 2, some 100, some 101⟩]
    "German" 100 id (List.Perm.refl _)

/-! ## C6 — malformed extraction entries -/

theorem extractLoop_eq_none (lang : String) (today : Int) :
    ∀ cands : List Candidate,
      (∃ c ∈ cands, c.word = none ∨ c.trans = none) →
      ∀ s, extractLoop lang today cands s = none := by
  intro cands
  induction cands with
  | nil => intro hc; simp at hc
  | cons c rest ih =>
    intro hc s
    cases hw : c.word with
    | none => simp [extractLoop, hw]
    | some w =>
      cases ht : c.trans with
      | none => simp [extractLoop, hw, ht]
      | some t =>
        have hrest : ∃ c2 ∈ rest, c2.word = none ∨ c2.trans = none := by
          rcases hc with ⟨c0, hc0, hbad⟩
          rcases List.mem_cons.1 hc0 with rfl | hmem
          · rcases hbad with hb | hb
            · rw [hw] at hb; exact absurd hb (by simp)
            · rw [ht] at hb; exact absurd hb (by simp)
          · exact ⟨c0, hmem, hbad⟩
        simp [extractLoop, hw, ht, ih hrest]

theorem extractLoop_eq_some (lang : String) (today : Int) :
    ∀ cands : List Candidate,
      (∀ c ∈ cands, c.word ≠ none ∧ c.trans ≠ none) →
      ∀ s, extractLoop lang today cands s =
        some (cands.foldl (fun st c =>
                insertOrIgnore st (c.word.getD "") lang (c.trans.getD "") today) s,
              cands.map (fun c => c.word.getD "")) := by
  intro cands
  induction cands with
  | nil => intro _ s; simp [extractLoop]
  | cons c rest ih =>
    intro hall s
    obtain ⟨hw, ht⟩ := hall c (List.mem_cons_self c rest)
    cases hcw : c.word with
    | none => exact absurd hcw hw
    | some w =>
      cases hct : c.trans with
      | none => exact absurd hct ht
      | some t =>
        have hrest := fun c2 hc2 => hall c2 (List.mem_cons_of_mem c hc2)
        simp [extractLoop, hcw, hct, ih hrest]

/-- C6 (counterexample): the batch
`[{word: "gut", trans: "good"}, {trans: "dog"}]` (second entry missing its
`word` key) is entirely discarded: the call returns no saved words and the
table is unchanged — the well-formed "gut" pair is NOT inserted — while the
same well-formed pair alone does get inserted. -/
theorem C6_batch_fault_counterexample :
    extract_and_save_vocab [] [⟨some "gut", some "good"⟩, ⟨none, some "dog"⟩]
        "German" 100 = ([], []) ∧
    (extract_and_save_vocab [] [⟨some "gut", some "good"⟩, ⟨none, some "dog"⟩]
        "German" 100).1 ≠
      [⟨"gut", "German", "good", 0, some 100, some 100⟩] ∧
    extract_and_save_vocab [] [⟨some "gut", some "good"⟩] "German" 100 =
      ([⟨"gut", "German", "good", 0, some 100, some 100⟩], ["gut"]) := by
  refine ⟨?_, ?_, ?_⟩ <;> decide

/-- C6 (amended): the candidate batch is all-or-nothing, not per-entry: if
any entry is malformed (missing `word` or `trans`), the raised `KeyError`
reaches the function's bare `except` before `commit`, so the whole call
returns no saved words and the table is observably unchanged; only when
every entry is well-formed is each pair passed through `INSERT OR IGNORE`
(in order) and its word reported. -/
theorem C6_batch_ingestion (s : List VocabRow) (cands : List Candidate)
    (lang : String) (today : Int) :
    ((∃ c ∈ cands, c.word = none ∨ c.trans = none) →
      extract_and_save_vocab s cands lang today = (s, [])) ∧
    ((∀ c ∈ cands, c.word ≠ none ∧ c.trans ≠ none) →
      extract_and_save_vocab s cands lang today =
        (cands.foldl (fun st c =>
            insertOrIgnore st (c.word.getD "") lang (c.trans.getD "") today) s,
         cands.map (fun c => c.word.getD ""))) := by
  constructor
  · intro hc
    rw [extract_and_save_vocab, extractLoop_eq_none lang today cands hc s]
  · intro hall
    rw [extract_and_save_vocab, extractLoop_eq_some lang today cands hall s]

/-- C6 witness: the amended behavior at concrete batches — a batch with a
malformed entry yields nothing; an all-well-formed batch folds its pairs
into the table. -/
theorem C6_batch_ingestion_witness :
    extract_and_save_vocab [] [⟨some "gut", some "good"⟩, ⟨none, some "dog"⟩]
        "German" 100 = ([], []) ∧
    extract_and_save_vocab [] [⟨some "rot", some "red"⟩] "German" 100 =
      ([⟨"rot", "German", "red", 0, some 100, some 100⟩], ["rot"]) := by
  constructor
  · exact (C6_batch_ingestion [] [⟨some "gut", some "good"⟩, ⟨none, some "dog"⟩]
      "German" 100).1 ⟨⟨none, some "dog"⟩, by simp, Or.inl rfl⟩
  · rw [(C6_batch_ingestion [] [⟨some "rot", some "red"⟩] "German" 100).2
      (by simp)]
    decide

/-! ## C10 — frame effect of judging a card -/

/-- C10: judging a card touches only the `vocab` table (the level store is
unchanged), rewrites rows pointwise (no row added or removed), leaves every
row whose key differs from the judged `(word, language)` exactly as it was,
and on the keyed row overwrites exactly `proficiency`, `last_reviewed` and
`next_review_date`, preserving its `word`, `language` and `translation`. -/
theorem C10_judge_frame (db : DB) (w lang : String) (q p today : Int) :
    (update_word_db db w lang q p today).user_levels = db.user_levels ∧
    (update_word_db db w lang q p today).vocab =
      db.vocab.map (judgeRow w lang q p today) ∧
    (update_word_db db w lang q p today).vocab.length = db.vocab.length ∧
    (∀ r : VocabRow, ¬(r.word = w ∧ r.language = lang) →
      judgeRow w lang q p today r = r) ∧
    (∀ r : VocabRow, r.word = w → r.language = lang →
      (judgeRow w lang q p today r).word = r.word ∧
      (judgeRow w lang q p today r).language = r.language ∧
      (judgeRow w lang q p today r).translation = r.translation ∧
      (judgeRow w lang q p today r).proficiency = (update_word_sched q p).1 ∧
      (judgeRow w lang q p today r).last_reviewed = some today ∧
      (judgeRow w lang q p today r).next_review_date =
        some (today + (update_word_sched q p).2)) := by
  refine ⟨rfl, rfl, by simp [update_word_db, update_word], ?_, ?_⟩
  · intro r hr
    have hcond : ¬(r.word == w && r.language == lang) = true := by
      simpa using hr
    rw [judgeRow, if_neg hcond]
  · intro r hw hl
    have hcond : (r.word == w && r.language == lang) = true := by
      simp [hw, hl]
    rw [judgeRow, if_pos hcond]
    exact ⟨rfl, rfl, rfl, rfl, rfl, rfl⟩

/-- C10 witness: judging ("Wasser","German") with Forgot in a two-row store
with a level record: the level store is untouched, the ("Hund","German")
row is untouched, and the judged row keeps its word and translation. -/
theorem C10_judge_frame_witness :
    (update_word_db
        ⟨[⟨"German", "B1", some 50⟩],
         [⟨"Hund", "German", "dog", 3, some 90, some 104⟩,
          ⟨"Wasser", "German", "water", 0, some 100, some 100⟩]⟩
        "Wasser" "German" 0 0 100).user_levels = [⟨"German", "B1", some 50⟩] ∧
    judgeRow "Wasser" "German" 0 0 100
        ⟨"Hund", "German", "dog", 3, some 90, some 104⟩ =
      ⟨"Hund", "German", "dog", 3, some 90, some 104⟩ ∧
    (judgeRow "Wasser" "German" 0 0 100
        ⟨"Wasser", "German", "water", 0, some 100, some 100⟩).translation =
      "water" := by
  obtain ⟨h1, _, _, h4, h5⟩ :=
    C10_judge_frame
      ⟨[⟨"German", "B1", some 50⟩],
       [⟨"Hund", "German", "dog", 3, some 90, some 104⟩,
        ⟨"Wasser", "German", "water", 0, some 100, some 100⟩]⟩
      "Wasser" "German" 0 0 100
  refine ⟨h1, h4 _ (by simp), ?_⟩
  exact (h5 ⟨"Wasser", "German", "water", 0, some 100, some 100⟩ rfl rfl).2.2.1

/-- C9 witness: the invariant at a concrete one-row store at the upper
clamp (proficiency 5, judged Easy) plus an insertion of a new word. -/
theorem C9_proficiency_invariant_witness :
    (0 ≤ (update_word_sched 2 5).1 ∧ (update_word_sched 2 5).1 ≤ 5) ∧
    profInv (insertOrIgnore [⟨"Hund", "German", "dog", 5, some 99, some 100⟩]
      "Katze" "German" "cat" 100) ∧
    profInv (update_word [⟨"Hund", "German", "dog", 5, some 99, some 100⟩]
      "Katze" "German" 2 5 100) :=
  C9_proficiency_invariant [⟨"Hund", "German", "dog", 5, some 99, some 100⟩]
    (by decide) 2 5 100 (by decide) (by decide) "Katze" "German" "cat"
